import Mathlib

set_option autoImplicit false
set_option maxHeartbeats 1000000

/-!
Verification of the financial-agent search pipeline.

This file gives a shallow embedding of the search orchestrator
(`src/backend/services/search/searchOrchestrator.js`), the results
processor (`ResultsProcessor`), the financial search workflow
(`src/backend/services/search/index.js`) and the planning fallback, and
proves properties of the combination, deduplication, scoring and
categorisation logic.

Embedding conventions:
* JavaScript numbers are modelled as exact rationals (`ℚ`); `Math.round`
  is `jsRound` below (round half towards positive infinity).
* JavaScript strings are Lean `String`s (lists of characters); `\w` is
  ASCII alphanumeric or underscore, `\s` is `Char.isWhitespace`, and
  `toLowerCase` is the ASCII `Char.toLower` (all inputs of interest are
  ASCII).
* `async` control flow is made explicit: the values each provider call
  stores into the `SearchOperation` record, and whether the timeout
  fired, are passed as explicit arguments.
* Fallible code returns `Except`/`Option`; fields that are `null`/absent
  in JavaScript are `Option`s.
-/

namespace FinancialAgent

/-! ## JavaScript-style primitives -/

/-- JS `Math.round`: round half towards positive infinity. -/
def jsRound (q : ℚ) : ℤ := ⌊q + 1/2⌋

/-- Character class of JS `\s` (whitespace). -/
def isWsChar (c : Char) : Bool := c.isWhitespace

/-- Character class kept by `replace(/[^\w\s]/g, '')`: `\w` (ASCII
alphanumeric or underscore) or whitespace. -/
def keepWordChar (c : Char) : Bool := c.isAlphanum || c = '_' || c.isWhitespace

/-- JS `replace(/\s+/g, ' ')` on a character list: every maximal run of
whitespace becomes a single space.  The boolean argument records whether
we are inside a whitespace run. -/
def squashWsGo : Bool → List Char → List Char
  | _, [] => []
  | inRun, c :: cs =>
    if isWsChar c then
      if inRun then squashWsGo true cs else ' ' :: squashWsGo true cs
    else c :: squashWsGo false cs

/-- JS `String.prototype.trim` on a character list: drop whitespace from
both ends. -/
def trimChars (cs : List Char) : List Char :=
  ((cs.dropWhile (fun c => isWsChar c)).reverse.dropWhile (fun c => isWsChar c)).reverse

/-- `ResultsProcessor.normalizeText`:
`text.toLowerCase().replace(/[^\w\s]/g, '').replace(/\s+/g, ' ').trim()`. -/
def normalizeText (text : String) : String :=
  ⟨trimChars (squashWsGo false ((text.data.map Char.toLower).filter keepWordChar))⟩

/-- JS `String.prototype.split(/\s+/)` on a character list.  Maximal
whitespace runs separate the pieces; a leading run contributes a leading
empty piece and a trailing run a trailing empty piece; splitting the
empty string yields `[""]`.  The boolean records whether we are inside a
whitespace run (whose piece has already been emitted); the accumulator
holds the current piece reversed. -/
def splitWsGo : Bool → List Char → List Char → List (List Char)
  | inRun, acc, [] => if inRun then [[]] else [acc.reverse]
  | inRun, acc, c :: cs =>
    if isWsChar c then
      if inRun then splitWsGo true [] cs
      else acc.reverse :: splitWsGo true [] cs
    else
      if inRun then splitWsGo false [c] cs
      else splitWsGo false (c :: acc) cs

/-- JS `s.split(/\s+/)` as a list of strings. -/
def jsSplitWs (s : String) : List String :=
  (splitWsGo false [] s.data).map String.mk

/-- One step of JS `Set` insertion order: append the element unless it is
already present. -/
def insertUniq {α : Type} [DecidableEq α] (acc : List α) (w : α) : List α :=
  if w ∈ acc then acc else acc ++ [w]

/-- JS `[...new Set(l)]`: first occurrences of the elements of `l`, in
order. -/
def jsSetOf {α : Type} [DecidableEq α] (l : List α) : List α :=
  l.foldl insertUniq []

/-- `ResultsProcessor.calculateSimilarity`: 1 on identical strings, 0 if
either is empty, otherwise the number of words of `str1` (with
multiplicity) occurring among the words of `str2`, divided by the number
of distinct words of the two strings together. -/
def calculateSimilarity (str1 str2 : String) : ℚ :=
  if str1 = str2 then 1
  else if str1.length = 0 ∨ str2.length = 0 then 0
  else
    let words1 := jsSplitWs str1
    let words2 := jsSplitWs str2
    let inter := words1.filter (fun w => decide (w ∈ words2))
    let union := jsSetOf (words1 ++ words2)
    (inter.length : ℚ) / (union.length : ℚ)

/-- Modelled from the spec wording of the similarity claim: the Jaccard
index of the two sets of whitespace-separated words — the size of the
intersection of the word sets divided by the size of their union
(`0/0 = 0` by rational division). -/
def jaccardIndex (str1 str2 : String) : ℚ :=
  let w1 := jsSetOf (jsSplitWs str1)
  let w2 := jsSetOf (jsSplitWs str2)
  ((w1.filter (fun w => decide (w ∈ w2))).length : ℚ) /
    ((jsSetOf (w1 ++ w2)).length : ℚ)

/-! ## Results Processor: records, deduplication, scoring, categorisation

Embedding of the `ResultsProcessor` class (`src/unnamed/part_002`).
-/

/-- The canonical record shape produced by `normalizeResults`.  `timestamp`
is the parsed epoch time in milliseconds (`none` when `new Date(...)`
would be invalid); `sourceDataKeys` is `Object.keys(result.sourceData).length`
(`none` when `sourceData` is absent). -/
structure NormalizedRecord where
  id : String
  searchId : String
  query : String
  source : String
  sourceUrl : Option String
  title : String
  content : String
  summary : String
  relevanceScore : ℚ
  confidence : String
  timestamp : Option ℚ
  sourceDataKeys : Option Nat
  category : String
  tags : List String
  qualityScore : ℤ
  freshnessScore : ℚ
  completenessScore : ℚ
  dataFreshness : String
deriving DecidableEq, Repr

namespace ResultsProcessor

/-- `this.dedupThreshold = 0.8`. -/
def dedupThreshold : ℚ := 8/10

/-- The title key of a record in `deduplicateResults`:
`this.normalizeText(result.title)`. -/
def titleKey (r : NormalizedRecord) : String := normalizeText r.title

/-- The content key of a record in `deduplicateResults`:
`this.normalizeText(result.content.substring(0, 100))`. -/
def contentKey (r : NormalizedRecord) : String :=
  normalizeText ⟨r.content.data.take 100⟩

/-- The duplicate test of the inner loop of `deduplicateResults`:
`titleSimilarity > this.dedupThreshold || contentSimilarity > this.dedupThreshold`,
comparing the incoming record `r` against an accepted record `e`. -/
def isDuplicateOf (r e : NormalizedRecord) : Bool :=
  decide (calculateSimilarity (titleKey r) (titleKey e) > dedupThreshold) ||
  decide (calculateSimilarity (contentKey r) (contentKey e) > dedupThreshold)

/-- The inner loop of `deduplicateResults`: scan the accepted list in
order; at the first accepted record the incoming one duplicates, replace
it in place when the incoming relevance score is strictly higher,
otherwise drop the incoming record; if no duplicate is found, push the
incoming record at the end. -/
def scanInsert (r : NormalizedRecord) : List NormalizedRecord → List NormalizedRecord
  | [] => [r]
  | e :: rest =>
    if isDuplicateOf r e then
      if r.relevanceScore > e.relevanceScore then r :: rest else e :: rest
    else e :: scanInsert r rest

/-- `ResultsProcessor.deduplicateResults`: fold the input through
`scanInsert`, starting from the empty accepted list. -/
def deduplicateResults (results : List NormalizedRecord) : List NormalizedRecord :=
  results.foldl (fun deduped r => scanInsert r deduped) []

/-- The confidence tier used by `scoreResults`:
`'high' → 100, 'medium' → 75, else 50`. -/
def confidenceTierScore (confidence : String) : ℚ :=
  if confidence = "high" then 100 else if confidence = "medium" then 75 else 50

/-- `ResultsProcessor.calculateFreshnessScore`: bucket the record's age
in hours relative to `now` (epoch milliseconds).  An unparseable
timestamp gives `NaN` comparisons in JS, which all fail, yielding 50. -/
def calculateFreshnessScore (now : ℚ) (r : NormalizedRecord) : ℚ :=
  match r.timestamp with
  | none => 50
  | some t =>
    let ageInHours := (now - t) / (1000 * 60 * 60)
    if ageInHours < 1 then 100
    else if ageInHours < 24 then 90
    else if ageInHours < 168 then 70
    else 50

/-- `ResultsProcessor.calculateCompletenessScore`: the fraction of five
presence checks that hold, scaled to 100.  JS truthiness of a string is
non-emptiness. -/
def calculateCompletenessScore (r : NormalizedRecord) : ℚ :=
  let factors : List Bool := [
    r.title ≠ "" && r.title ≠ "Untitled",
    r.content ≠ "" && decide (r.content.length > 50),
    (match r.sourceUrl with | some u => u ≠ "" | none => false),
    r.summary ≠ "" && decide (r.summary.length > 20),
    (match r.sourceDataKeys with | some n => decide (n > 3) | none => false)]
  ((factors.count true : ℚ) / (factors.length : ℚ)) * 100

/-- The quality weights `{relevance: 0.4, confidence: 0.3, freshness: 0.2,
completeness: 0.1}`. -/
structure QualityWeights where
  relevance : ℚ
  confidence : ℚ
  freshness : ℚ
  completeness : ℚ

def qualityWeights : QualityWeights :=
  { relevance := 4/10, confidence := 3/10, freshness := 2/10, completeness := 1/10 }

/-- The body of the `map` in `scoreResults`: attach the computed
`qualityScore`, `freshnessScore` and `completenessScore` to the record. -/
def scoreOne (now : ℚ) (r : NormalizedRecord) : NormalizedRecord :=
  let freshnessScore := calculateFreshnessScore now r
  let completenessScore := calculateCompletenessScore r
  let qualityScore := jsRound
    (r.relevanceScore * qualityWeights.relevance +
     confidenceTierScore r.confidence * qualityWeights.confidence +
     freshnessScore * qualityWeights.freshness +
     completenessScore * qualityWeights.completeness)
  { r with qualityScore := qualityScore, freshnessScore := freshnessScore,
           completenessScore := completenessScore }

/-- `ResultsProcessor.scoreResults`: score every record, then sort by
descending quality score.  JS `Array.prototype.sort` is stable and the
comparator is `(a, b) => b.qualityScore - a.qualityScore`, so `a` stays
before `b` exactly when `b.qualityScore ≤ a.qualityScore`.  The `query`
parameter is accepted but, as in the source, never read. -/
def scoreResults (now : ℚ) (results : List NormalizedRecord) (query : String) :
    List NormalizedRecord :=
  (results.map (scoreOne now)).mergeSort
    (fun a b => decide (b.qualityScore ≤ a.qualityScore))

/-- The ordered keyword patterns of `determineCategory`; each regular
expression in the source is an alternation of literal substrings. -/
def categoryPatterns : List (String × List String) :=
  [("interest_rates", ["interest rate", "fed rate", "federal reserve", "monetary policy"]),
   ("inflation", ["inflation", "cpi", "consumer price", "price index"]),
   ("stock_market", ["stock", "equity", "market", "dow", "nasdaq", "s&p"]),
   ("economic_indicators", ["gdp", "economic growth", "recession", "economy"]),
   ("employment", ["employment", "unemployment", "jobs", "labor"]),
   ("currency", ["currency", "forex", "exchange rate", "dollar"])]

/-- JS `hay.match(/p1|p2|.../) !== null` for literal alternatives:
some alternative occurs as a substring. -/
def matchesAny (text : String) (pats : List String) : Bool :=
  pats.any (fun p => decide (p.data <:+: text.data))

/-- First-hit lookup over the ordered category patterns, defaulting to
`general_financial`. -/
def firstCategory (text : String) : List (String × List String) → String
  | [] => "general_financial"
  | (cat, pats) :: rest =>
    if matchesAny text pats then cat else firstCategory text rest

/-- `ResultsProcessor.determineCategory`: the matched text is
`content.toLowerCase() + ' ' + title.toLowerCase()` — content first,
then title. -/
def determineCategory (r : NormalizedRecord) : String :=
  firstCategory (r.content.toLower ++ " " ++ r.title.toLower) categoryPatterns

/-- Modelled from the spec wording of the categorisation claim: the same
first-hit keyword matching applied to the lowercased title followed by
the content. -/
def specDetermineCategoryTitleFirst (r : NormalizedRecord) : String :=
  firstCategory (r.title.toLower ++ " " ++ r.content.toLower) categoryPatterns

/-- The fixed closed set of categories. -/
def categorySet : List String :=
  ["interest_rates", "inflation", "stock_market", "economic_indicators",
   "employment", "currency", "general_financial"]

end ResultsProcessor

/-! ## Search Orchestrator

Embedding of `SearchOrchestrator`
(`src/backend/services/search/searchOrchestrator.js`).  The values the
provider wrappers (`executePerplexitySearch` / `executeFirecrawlSearch`)
store into the operation's result and error slots, and whether the
timeout promise won the race, are explicit arguments.
-/

/-- The result object of `searchWithPerplexity`: on success `content` is
set and `error` absent; on failure `content` is `null`, `error` is set
and `confidence` is `"failed"`. -/
structure PerplexityResult where
  query : String
  content : Option String
  error : Option String
  confidence : String
  searchId : String
deriving DecidableEq, Repr

/-- The structured content of one scraped page
(`extractStructuredContent` in the Firecrawl service), as read through
`result.data?.…` by the orchestrator. -/
structure FirecrawlData where
  title : Option String
  url : Option String
  content : Option String
  summary : Option String
  relevanceScore : Option ℚ
  extractedData : Option String
deriving DecidableEq, Repr

/-- One element of the Firecrawl `successful` list (`scrapeUrl` result);
the orchestrator reads only its `data` field. -/
structure FirecrawlItem where
  data : Option FirecrawlData
deriving DecidableEq, Repr

/-- The result object of `extractDataForQuery`; the orchestrator reads
only the `successful` list. -/
structure FirecrawlResult where
  successful : List FirecrawlItem
deriving DecidableEq, Repr

/-- The per-provider error slots of a `SearchOperation` (`errors`). -/
structure ProviderErrors where
  perplexity : Option String
  firecrawl : Option String
deriving DecidableEq, Repr

/-- The parts of a `SearchOperation` record consumed by
`combineSearchResults` and `createFallbackResults`: identity, query, the
two provider result slots and the error slots. -/
structure SearchOperation where
  id : String
  query : String
  perplexityResult : Option PerplexityResult
  firecrawlResult : Option FirecrawlResult
  errors : ProviderErrors
deriving DecidableEq, Repr

/-- One entry of `combined.allResults`.  A Perplexity entry carries
`content`, `confidence` and `searchId`; a Firecrawl entry carries
`title`, `url`, `content`, `relevanceScore` and `extractedData`; the
remaining fields are absent (`undefined` in JS). -/
structure ResultEntry where
  source : String
  content : Option String
  confidence : Option String
  searchId : Option String
  title : Option String
  url : Option String
  relevanceScore : Option ℚ
  extractedData : Option String
deriving DecidableEq, Repr

/-- The `summary` block of a combined result. -/
structure CombinedSummary where
  totalSources : Nat
  perplexityAvailable : Bool
  firecrawlAvailable : Bool
  combinedConfidence : ℤ
deriving DecidableEq, Repr

/-- The combined record built by `combineSearchResults`. -/
structure CombinedResult where
  query : String
  searchId : String
  sources : List String
  allResults : List ResultEntry
  summary : CombinedSummary
deriving DecidableEq, Repr

namespace SearchOrchestrator

/-- `!!perplexity && !perplexity.error`: the Perplexity slot holds a
result without an `error` field. -/
def perplexityUsable : Option PerplexityResult → Bool
  | some p => p.error.isNone
  | none => false

/-- `!!firecrawl && firecrawl.successful && firecrawl.successful.length > 0`. -/
def firecrawlUsable : Option FirecrawlResult → Bool
  | some f => !f.successful.isEmpty
  | none => false

/-- The entry pushed onto `allResults` for a usable Perplexity result. -/
def perplexityEntry (p : PerplexityResult) : ResultEntry :=
  { source := "perplexity", content := p.content, confidence := some p.confidence,
    searchId := some p.searchId, title := none, url := none,
    relevanceScore := none, extractedData := none }

/-- The entry pushed onto `allResults` for one Firecrawl `successful`
item (fields read through `result.data?.…`). -/
def firecrawlEntry (it : FirecrawlItem) : ResultEntry :=
  { source := "firecrawl", content := it.data.bind (·.content), confidence := none,
    searchId := none, title := it.data.bind (·.title), url := it.data.bind (·.url),
    relevanceScore := it.data.bind (·.relevanceScore),
    extractedData := it.data.bind (·.extractedData) }

/-- The per-entry value summed for the combined confidence:
`result.confidence === 'high' ? 90 : result.relevanceScore || 50`.
A `relevanceScore` of `0` is falsy in JS, so `|| 50` replaces it. -/
def entryConfidenceValue (r : ResultEntry) : ℚ :=
  if r.confidence = some "high" then 90
  else match r.relevanceScore with
    | some v => if v = 0 then 50 else v
    | none => 50

/-- Modelled from the spec wording of the combined-confidence claim:
90 for a `"high"`-confidence entry, else the entry's numeric relevance
score if present, else 50 — a present score of 0 counts as 0. -/
def specEntryConfidenceValue (r : ResultEntry) : ℚ :=
  if r.confidence = some "high" then 90
  else match r.relevanceScore with
    | some v => v
    | none => 50

/-- The rounded mean of per-entry values over a non-empty entry list
(`0` when the list is empty, matching the untouched initial value). -/
def meanConfidence (value : ResultEntry → ℚ) (entries : List ResultEntry) : ℤ :=
  if entries.length > 0 then
    jsRound ((entries.map value).sum / (entries.length : ℚ))
  else 0

/-- `SearchOrchestrator.combineSearchResults`. -/
def combineSearchResults (op : SearchOperation) : CombinedResult :=
  let pUsable := perplexityUsable op.perplexityResult
  let fUsable := firecrawlUsable op.firecrawlResult
  let pEntries := match op.perplexityResult with
    | some p => if p.error.isNone then [perplexityEntry p] else []
    | none => []
  let fEntries := match op.firecrawlResult with
    | some f => if !f.successful.isEmpty then f.successful.map firecrawlEntry else []
    | none => []
  let allResults := pEntries ++ fEntries
  { query := op.query, searchId := op.id,
    sources := (if pUsable then ["perplexity"] else []) ++
               (if fUsable then ["firecrawl"] else []),
    allResults := allResults,
    summary :=
      { totalSources := (if pUsable then 1 else 0) + (if fUsable then 1 else 0),
        perplexityAvailable := pUsable, firecrawlAvailable := fUsable,
        combinedConfidence := meanConfidence entryConfidenceValue allResults } }

/-- `createFallbackResults` succeeds iff some provider produced usable
data. -/
def usableProviderData (op : SearchOperation) : Bool :=
  perplexityUsable op.perplexityResult || firecrawlUsable op.firecrawlResult

/-- The record returned by `executeParallelSearch`.  The completed path
sets `sourceFlags` (the booleans `!!results.perplexity` /
`!!results.firecrawl`); the fallback path sets `sourcesList` (the
combined record's `sources` array) and `errors`. -/
structure ParallelSearchReturn where
  searchId : String
  query : String
  results : CombinedResult
  status : String
  sourceFlags : Option (Bool × Bool)
  sourcesList : Option (List String)
  errors : Option ProviderErrors
deriving DecidableEq, Repr

/-- `SearchOrchestrator.createFallbackResults`. -/
def createFallbackResults (op : SearchOperation) : Option ParallelSearchReturn :=
  if usableProviderData op then
    let combinedResults := combineSearchResults op
    some { searchId := op.id, query := op.query, results := combinedResults,
           status := "partial_success", sourceFlags := none,
           sourcesList := some combinedResults.sources, errors := some op.errors }
  else none

/-- The `catch` block of `executeParallelSearch` (lines 130–146): when
fallback is enabled and `createFallbackResults` yields a record, return
it; otherwise rethrow the error. -/
def handleSearchFailure (op : SearchOperation) (fallbackEnabled : Bool)
    (errMsg : String) : Except String ParallelSearchReturn :=
  if fallbackEnabled then
    match createFallbackResults op with
    | some fb => .ok fb
    | none => .error errMsg
  else .error errMsg

/-- The `SearchOperation` as populated by the provider wrappers: a
provider's slots can only be written if it was enabled. -/
def mkOperation (enableP enableF : Bool) (id query : String)
    (pRes : Option PerplexityResult) (fRes : Option FirecrawlResult)
    (pErr fErr : Option String) : SearchOperation :=
  { id := id, query := query,
    perplexityResult := if enableP then pRes else none,
    firecrawlResult := if enableF then fRes else none,
    errors := { perplexity := if enableP then pErr else none,
                firecrawl := if enableF then fErr else none } }

/-- `SearchOrchestrator.executeParallelSearch`.  `pRes`/`fRes` are the
values the provider wrappers stored into the operation's result slots
(`none` when the wrapper caught an error or never settled),
`pErr`/`fErr` the error slots, and `timedOut` whether the timeout
promise won the race.  With no provider enabled the function throws
before racing; the thrown error and a lost race both land in the same
`catch` block. -/
def executeParallelSearch (enableP enableF fallbackEnabled : Bool)
    (id query : String) (pRes : Option PerplexityResult)
    (fRes : Option FirecrawlResult) (pErr fErr : Option String)
    (timedOut : Bool) : Except String ParallelSearchReturn :=
  let op := mkOperation enableP enableF id query pRes fRes pErr fErr
  if !enableP && !enableF then
    handleSearchFailure op fallbackEnabled "No search providers enabled"
  else if timedOut then
    handleSearchFailure op fallbackEnabled "Search timeout"
  else
    .ok { searchId := id, query := query, results := combineSearchResults op,
          status := "completed",
          sourceFlags := some (op.perplexityResult.isSome, op.firecrawlResult.isSome),
          sourcesList := none, errors := none }

/-- One element of the batch `results` list: either the record a
resolved `executeParallelSearch` produced, or the failure entry
`{query, status: 'failed', error, results: null}` built by the
per-query `catch`. -/
inductive BatchEntry where
  | ok (r : ParallelSearchReturn)
  | failure (query : String) (error : String)
deriving DecidableEq, Repr

/-- The `status` field of a batch entry. -/
def BatchEntry.status : BatchEntry → String
  | .ok r => r.status
  | .failure _ _ => "failed"

/-- The record returned by `executeBatchSearch`. -/
structure BatchOut where
  batchId : String
  queries : List String
  results : List BatchEntry
  successful : List BatchEntry
  failed : List BatchEntry
deriving DecidableEq, Repr

/-- `options.maxConcurrent || this.config.maxConcurrentQueries` with the
configured value 3; `0` is falsy in JS. -/
def effectiveMaxConcurrent : Option Nat → Nat
  | some n => if n = 0 then 3 else n
  | none => 3

/-- The chunk loop of `executeBatchSearch`: process `k` queries at a
time.  The fuel argument bounds the number of iterations; `queries.length`
iterations always suffice since each one consumes at least one query. -/
def chunkedRun (f : String → BatchEntry) (k : Nat) : Nat → List String → List BatchEntry
  | 0, _ => []
  | _, [] => []
  | Nat.succ fuel, qs => (qs.take k).map f ++ chunkedRun f k fuel (qs.drop k)

/-- The per-query body of the chunk loop:
`executeParallelSearch(query).catch(error => ({query, status: FAILED, error, results: null}))`. -/
def runSearchEntry (search : String → Except String ParallelSearchReturn)
    (q : String) : BatchEntry :=
  match search q with
  | .ok r => .ok r
  | .error e => .failure q e

/-- `SearchOrchestrator.executeBatchSearch`: run the chunk loop, then
partition the collected results into `successful`
(`status === COMPLETED`) and `failed` (everything else). -/
def executeBatchSearch (queries : List String) (maxConcurrentOpt : Option Nat)
    (search : String → Except String ParallelSearchReturn) : BatchOut :=
  let k := effectiveMaxConcurrent maxConcurrentOpt
  let results := chunkedRun (runSearchEntry search) k queries.length queries
  { batchId := "batch", queries := queries, results := results,
    successful := results.filter (fun r => r.status = "completed"),
    failed := results.filter (fun r => !(r.status = "completed" : Bool)) }

end SearchOrchestrator

/-! ## Financial Search Service (workflow coordinator)

Embedding of `FinancialSearchService`
(`src/backend/services/search/index.js`).  The planning call's outcome
and the orchestrator's per-query outcome are explicit arguments.
-/

/-- The `workflow.steps.planning` record of `executeFinancialSearch`. -/
structure PlanningStep where
  success : Bool
  subQuestions : List String
  error : Option String
  fallback : Bool
  note : Option String
deriving DecidableEq, Repr

/-- The `workflow.steps.searching` record (success path statistics). -/
structure SearchingStep where
  success : Bool
  batchId : Option String
  totalQueries : Option Nat
  successfulCount : Option Nat
  failedCount : Option Nat
  error : Option String
deriving DecidableEq, Repr

/-- The `workflow.steps.processing` record.  The statistics fields of the
success path (result totals, quality) are not inspected by any claim and
are omitted. -/
structure ProcessingStep where
  success : Bool
  error : Option String
  note : Option String
deriving DecidableEq, Repr

/-- The three step slots of the workflow trace. -/
structure WorkflowSteps where
  planning : Option PlanningStep
  searching : Option SearchingStep
  processing : Option ProcessingStep
deriving DecidableEq, Repr

/-- The `workflow` block attached to the response.  The success path
(lines 230–239) carries `steps` and `status := "completed"`; the
top-level `catch` (lines 266–273) carries only `error` — no steps, no
status. -/
structure WorkflowInfo where
  searchId : String
  userQuery : String
  steps : Option WorkflowSteps
  status : Option String
  error : Option String
deriving DecidableEq, Repr

/-- The response of `executeFinancialSearch`, reduced to the fields the
claims inspect: the workflow trace, and whether the body is the
top-level error record (`errorBody` carries its message). -/
structure FSResponse where
  workflow : WorkflowInfo
  errorBody : Option String
deriving DecidableEq, Repr

namespace FinancialSearchService

open SearchOrchestrator

/-- The planning phase of `executeFinancialSearch` (lines 76–119).
`planningOutcome` is the outcome of `planFinancialResearch`:
`.error e` when it threw, `.ok none` when it resolved without a valid
`subQuestions` array (which throws `Invalid planning result structure`
inside the same `try`), `.ok (some qs)` otherwise.  Returns the
sub-question list used for searching together with the recorded step. -/
def planningStage (userQuery : String) (enablePlanning : Bool)
    (maxSubQuestions : Nat)
    (planningOutcome : Except String (Option (List String))) :
    List String × PlanningStep :=
  if enablePlanning then
    match planningOutcome with
    | .ok (some qs) =>
      let subQuestions := qs.take maxSubQuestions
      (subQuestions, { success := true, subQuestions := subQuestions,
                       error := none, fallback := false, note := none })
    | .ok none =>
      ([userQuery], { success := false, subQuestions := [userQuery],
                      error := some "Invalid planning result structure",
                      fallback := true, note := none })
    | .error e =>
      ([userQuery], { success := false, subQuestions := [userQuery],
                      error := some e, fallback := true, note := none })
  else
    ([userQuery], { success := true, subQuestions := [userQuery],
                    error := none, fallback := false,
                    note := some "Planning disabled - using original query" })

/-- The search phase of `executeFinancialSearch` (lines 124–159): a
single sub-question goes through `executeParallelSearch` and its one
result is wrapped in batch shape with itself as the sole `successful`
entry; several sub-questions go through `executeBatchSearch`. -/
def searchStage (single : String → Except String ParallelSearchReturn)
    (maxConcurrent : Option Nat) : List String → Except String BatchOut
  | [q0] =>
    match single q0 with
    | .ok r =>
      .ok { batchId := "single_" ++ r.searchId, queries := [q0],
            results := [.ok r], successful := [.ok r], failed := [] }
    | .error e => .error e
  | qs => .ok (executeBatchSearch qs maxConcurrent single)

/-- The combined structure handed to the results processor
(`FinancialSearchService.combineSearchResults`, lines 281–304): flatten
the `allResults` of every *successful* batch entry; the `sources` flags
record whether any flattened entry came from each provider. -/
structure FSCombinedInput where
  searchId : String
  query : String
  status : String
  sourcesPerplexity : Bool
  sourcesFirecrawl : Bool
  allResults : List ResultEntry
deriving DecidableEq, Repr

/-- The `allResults` list contributed by one batch entry
(`searchResult.results && searchResult.results.allResults`); a failure
entry has `results: null`. -/
def batchEntryAllResults : BatchEntry → List ResultEntry
  | .ok r => r.results.allResults
  | .failure _ _ => []

/-- `FinancialSearchService.combineSearchResults`. -/
def combineSearchResults (batchResults : BatchOut) (originalQuery searchId : String) :
    FSCombinedInput :=
  let allResults := (batchResults.successful.map batchEntryAllResults).flatten
  { searchId := searchId, query := originalQuery, status := "completed",
    sourcesPerplexity := allResults.any (fun r => r.source = "perplexity"),
    sourcesFirecrawl := allResults.any (fun r => r.source = "firecrawl"),
    allResults := allResults }

/-- The processing step recorded by `executeFinancialSearch`: when
processing is enabled the processor's internal catch keeps this step
successful; when disabled the raw-results note is recorded. -/
def processingStepOf (enableProcessing : Bool) : ProcessingStep :=
  if enableProcessing then { success := true, error := none, note := none }
  else { success := true, error := none,
         note := some "Results processing disabled - returning raw results" }

/-- `FinancialSearchService.executeFinancialSearch`, reduced to the
workflow trace.  Planning falls back internally; a throw from the search
phase (or search being disabled) reaches the top-level `catch`, whose
response carries a `workflow` without step records; the processing phase
cannot throw (`processSearchResults` catches internally), so when search
succeeds the success-path response carries all three steps. -/
def executeFinancialSearch (searchId userQuery : String)
    (enablePlanning enableSearch enableProcessing : Bool)
    (maxSubQuestions : Nat) (maxConcurrent : Option Nat)
    (planningOutcome : Except String (Option (List String)))
    (single : String → Except String ParallelSearchReturn) : FSResponse :=
  let (subQuestions, planningStep) :=
    planningStage userQuery enablePlanning maxSubQuestions planningOutcome
  let searchOutcome : Except String BatchOut :=
    if enableSearch then searchStage single maxConcurrent subQuestions
    else .error "Search is disabled"
  match searchOutcome with
  | .error e =>
    { workflow := { searchId := searchId, userQuery := userQuery,
                    steps := none, status := none, error := some e },
      errorBody := some e }
  | .ok batch =>
    let searchingStep : SearchingStep :=
      { success := true, batchId := some batch.batchId,
        totalQueries := some batch.results.length,
        successfulCount := some batch.successful.length,
        failedCount := some batch.failed.length, error := none }
    let processingStep : ProcessingStep := processingStepOf enableProcessing
    { workflow := { searchId := searchId, userQuery := userQuery,
                    steps := some { planning := some planningStep,
                                    searching := some searchingStep,
                                    processing := some processingStep },
                    status := some "completed", error := none },
      errorBody := none }

end FinancialSearchService

/-! ## Concrete operations used by the scenario claims -/

open SearchOrchestrator ResultsProcessor FinancialSearchService

/-- The scenario of the combined-confidence claim: one provider returns
`confidence: "high"`, the other a 2-item list with relevance scores 95
and 80. -/
def scenarioOperation : SearchOperation :=
  { id := "search_1", query := "Federal Reserve interest rate",
    perplexityResult := some
      { query := "Federal Reserve interest rate",
        content := some "The Fed held rates steady.", error := none,
        confidence := "high", searchId := "pplx_1" },
    firecrawlResult := some
      { successful :=
        [{ data := some
             { title := some "Fed decision",
               url := some "https://www.federalreserve.gov/a",
               content := some "FOMC statement on rates.", summary := none,
               relevanceScore := some 95, extractedData := none } },
         { data := some
             { title := some "Rate analysis",
               url := some "https://www.bloomberg.com/b",
               content := some "Analysts expect steady rates.", summary := none,
               relevanceScore := some 80, extractedData := none } }] },
    errors := { perplexity := none, firecrawl := none } }

/-- An operation whose only usable entry is a Firecrawl item with a
present relevance score of `0`. -/
def zeroScoreOperation : SearchOperation :=
  { id := "search_0", query := "irrelevant page",
    perplexityResult := none,
    firecrawlResult := some
      { successful :=
        [{ data := some
             { title := some "Off-topic", url := some "https://x",
               content := some "Nothing relevant here.", summary := none,
               relevanceScore := some 0, extractedData := none } }] },
    errors := { perplexity := some "Network error", firecrawl := none } }

/-! ## Claim C1 -/

/-- An operation where Perplexity succeeded and Firecrawl recorded an
error: usable data exists alongside a per-provider error. -/
def partialOperation : SearchOperation :=
  { id := "s", query := "q",
    perplexityResult := some
      { query := "q", content := some "text", error := none,
        confidence := "high", searchId := "p1" },
    firecrawlResult := some { successful := [] },
    errors := { perplexity := none, firecrawl := some "boom" } }

/-- A successful Perplexity result used by concrete instantiations. -/
def perplexityOk : PerplexityResult :=
  { query := "q", content := some "text", error := none,
    confidence := "high", searchId := "p1" }

/-- A record with all string fields empty/default, the zero score, and
no optional data. -/
def emptyRecord : NormalizedRecord :=
  { id := "", searchId := "", query := "", source := "", sourceUrl := none,
    title := "", content := "", summary := "", relevanceScore := 0,
    confidence := "", timestamp := none, sourceDataKeys := none,
    category := "uncategorized", tags := [], qualityScore := 0,
    freshnessScore := 0, completenessScore := 0, dataFreshness := "unknown" }

/-- A record whose title ends with a keyword that only the
content-then-title concatenation order breaks apart. -/
def straddleRecord : NormalizedRecord :=
  { emptyRecord with title := "Interest", content := "rate policy shift" }

/-- Records on which the idempotence counterexample turns: `B`'s title
is contained in both `A`'s and `C`'s, but `A` and `C` are not similar to
each other. -/
def dedupRecordA : NormalizedRecord :=
  { emptyRecord with title := "p q r s t a", content := "p q r s t a", relevanceScore := 50 }

def dedupRecordB : NormalizedRecord :=
  { emptyRecord with title := "p q r s t", content := "p q r s t", relevanceScore := 60 }

def dedupRecordC : NormalizedRecord :=
  { emptyRecord with title := "p q r s t b", content := "p q r s t b", relevanceScore := 50 }

/-- Two records with disjoint word sets. -/
def distinctRecord1 : NormalizedRecord :=
  { emptyRecord with title := "alpha beta", content := "alpha beta", relevanceScore := 10 }

def distinctRecord2 : NormalizedRecord :=
  { emptyRecord with title := "gamma delta", content := "gamma delta", relevanceScore := 20 }

/-- Record kept in the C5 counterexample (highest relevance, similar to
`dropRecordA5` only). -/
def keepRecordC5 : NormalizedRecord :=
  { emptyRecord with title := "p q r s t b", content := "p q r s t b", relevanceScore := 60 }

/-- Record discarded in the C5 counterexample in favour of `keepRecordC5`. -/
def dropRecordA5 : NormalizedRecord :=
  { emptyRecord with title := "p q r s t", content := "p q r s t", relevanceScore := 50 }

/-- Record similar to `dropRecordA5` (similarity 5/6) but not to
`keepRecordC5` (similarity 5/7), with the lowest relevance. -/
def lowRecordB5 : NormalizedRecord :=
  { emptyRecord with title := "p q r s t c", content := "p q r s t c", relevanceScore := 40 }

/-- Records with one title containing the other (similarity 5/6). -/
def pairRecordHigh : NormalizedRecord :=
  { emptyRecord with title := "x y z w v u", content := "x y z w v u", relevanceScore := 80 }

def pairRecordLow : NormalizedRecord :=
  { emptyRecord with title := "x y z w v", content := "x y z w v", relevanceScore := 30 }

/-- An empty combined record. -/
def emptyCombined : CombinedResult :=
  { query := "q", searchId := "s1", sources := [], allResults := [],
    summary := { totalSources := 0, perplexityAvailable := false,
                 firecrawlAvailable := false, combinedConfidence := 0 } }

/-- A completed orchestrator return used by concrete instantiations. -/
def okReturn : SearchOrchestrator.ParallelSearchReturn :=
  { searchId := "s1", query := "q", results := emptyCombined,
    status := "completed", sourceFlags := some (true, false),
    sourcesList := none, errors := none }

/-- A partial-success orchestrator return. -/
def partialReturn : SearchOrchestrator.ParallelSearchReturn :=
  { searchId := "s1", query := "q", results := emptyCombined,
    status := "partial_success", sourceFlags := none, sourcesList := some [],
    errors := some { perplexity := some "timeout", firecrawl := none } }

/-- A plain well-formed record for the scoring witness. -/
def scoredRecordW : NormalizedRecord :=
  { emptyRecord with
      relevanceScore := 85, confidence := "high", title := "Fed rate",
      content := "The Federal Reserve held rates steady." }

/-- Claim C1, counterexample: on an operation whose single usable entry
carries the present relevance score `0`, the code computes a combined
confidence of `round(50/1) = 50` (JS `result.relevanceScore || 50`
treats `0` as falsy), while the claimed formula — the entry's numeric
relevance score whenever present — yields `round(0/1) = 0`. -/
theorem combinedConfidence_spec_counterexample :
    (combineSearchResults zeroScoreOperation).summary.combinedConfidence = 50 ∧
    meanConfidence specEntryConfidenceValue
        (combineSearchResults zeroScoreOperation).allResults = 0 ∧
    (combineSearchResults zeroScoreOperation).summary.combinedConfidence ≠
      meanConfidence specEntryConfidenceValue
        (combineSearchResults zeroScoreOperation).allResults := by
  with_unfolding_all decide

/-- Claim C1, amended: for every `SearchOperation` with at least one
usable entry, `combineSearchResults` sets `summary.combinedConfidence`
to the rounded mean over all entries of (90 if the entry's confidence is
`"high"`, else the entry's relevance score if present *and non-zero*,
else 50); in particular, in the scenario with one `"high"`-confidence
provider and a 2-item list with relevance 95 and 80, the combined record
has 2 sources, 3 entries and combined confidence
`round((90+95+80)/3) = 88`. -/
theorem combinedConfidence_rounded_mean :
    (∀ op : SearchOperation, (combineSearchResults op).allResults ≠ [] →
      (combineSearchResults op).summary.combinedConfidence =
        jsRound (((combineSearchResults op).allResults.map entryConfidenceValue).sum /
          ((combineSearchResults op).allResults.length : ℚ))) ∧
    (combineSearchResults scenarioOperation).sources.length = 2 ∧
    (combineSearchResults scenarioOperation).allResults.length = 3 ∧
    (combineSearchResults scenarioOperation).summary.combinedConfidence = 88 := by
  refine ⟨?_, ?_, ?_, ?_⟩
  · intro op h
    have hpos : 0 < (combineSearchResults op).allResults.length :=
      List.length_pos.mpr h
    have hrw : (combineSearchResults op).summary.combinedConfidence
        = meanConfidence entryConfidenceValue (combineSearchResults op).allResults := rfl
    rw [hrw, meanConfidence, if_pos hpos]
  · with_unfolding_all decide
  · with_unfolding_all decide
  · with_unfolding_all decide

/-- Witness for the amended C1 theorem: the scenario operation has a
non-empty entry list and satisfies the rounded-mean equation. -/
theorem combinedConfidence_rounded_mean_witness :
    (combineSearchResults scenarioOperation).allResults ≠ [] ∧
    (combineSearchResults scenarioOperation).summary.combinedConfidence =
      jsRound (((combineSearchResults scenarioOperation).allResults.map entryConfidenceValue).sum /
        ((combineSearchResults scenarioOperation).allResults.length : ℚ)) :=
  ⟨by with_unfolding_all decide,
   combinedConfidence_rounded_mean.1 scenarioOperation (by with_unfolding_all decide)⟩

/-! ## Claim C2 -/

/-- Claim C2: when the failure path of `executeParallelSearch` triggers
and fallback is enabled, the operation returns a `partial_success`
record carrying the per-provider errors whenever some provider already
produced usable data, and propagates the error otherwise.  The third
conjunct ties the timeout path of `executeParallelSearch` itself to the
shared `catch`-block logic. -/
theorem executeParallelSearch_fallback_policy (op : SearchOperation) (errMsg : String) :
    (usableProviderData op = true →
      ∃ r, handleSearchFailure op true errMsg = .ok r ∧
        r.status = "partial_success" ∧ r.errors = some op.errors ∧
        r.results = combineSearchResults op) ∧
    (usableProviderData op = false →
      handleSearchFailure op true errMsg = .error errMsg) ∧
    (∀ enableP enableF : Bool, (enableP || enableF) = true →
      ∀ (id query : String) (pRes : Option PerplexityResult)
        (fRes : Option FirecrawlResult) (pErr fErr : Option String),
        executeParallelSearch enableP enableF true id query pRes fRes pErr fErr true
          = handleSearchFailure (mkOperation enableP enableF id query pRes fRes pErr fErr)
              true "Search timeout") := by
  refine ⟨?_, ?_, ?_⟩
  · intro h
    refine ⟨{ searchId := op.id, query := op.query,
              results := combineSearchResults op, status := "partial_success",
              sourceFlags := none,
              sourcesList := some (combineSearchResults op).sources,
              errors := some op.errors }, ?_, rfl, rfl, rfl⟩
    simp [handleSearchFailure, createFallbackResults, h]
  · intro h
    simp [handleSearchFailure, createFallbackResults, h]
  · intro enableP enableF h id query pRes fRes pErr fErr
    cases enableP <;> cases enableF <;> first | rfl | simp at h

/-- Witness for C2: on `partialOperation` (usable Perplexity data, a
recorded Firecrawl error) a timeout with fallback enabled yields the
partial-success record. -/
theorem executeParallelSearch_fallback_policy_witness :
    usableProviderData partialOperation = true ∧
    (∃ r, handleSearchFailure partialOperation true "Search timeout" = .ok r ∧
      r.status = "partial_success" ∧
      r.errors = some partialOperation.errors ∧
      r.results = combineSearchResults partialOperation) :=
  ⟨by decide,
   (executeParallelSearch_fallback_policy partialOperation "Search timeout").1 (by decide)⟩

/-! ## Claim C3 -/

/-- The `sources` array of a combined record contains each provider name
exactly when that provider's data was usable. -/
theorem mem_sources_combineSearchResults (op : SearchOperation) :
    ("perplexity" ∈ (combineSearchResults op).sources ↔
       perplexityUsable op.perplexityResult = true) ∧
    ("firecrawl" ∈ (combineSearchResults op).sources ↔
       firecrawlUsable op.firecrawlResult = true) := by
  have h : (combineSearchResults op).sources
      = (if perplexityUsable op.perplexityResult then ["perplexity"] else []) ++
        (if firecrawlUsable op.firecrawlResult then ["firecrawl"] else []) := rfl
  constructor <;> rw [h] <;>
    cases perplexityUsable op.perplexityResult <;>
    cases firecrawlUsable op.firecrawlResult <;> decide

/-- Claim C3: with both providers disabled `executeParallelSearch` fails
with the no-providers-enabled error (for any fallback setting and race
outcome), and with at least one provider enabled and the race won it
returns a completed record whose `sources` list contains exactly the
providers that returned non-error data. -/
theorem executeParallelSearch_sources (fallbackEnabled : Bool) (id query : String)
    (pRes : Option PerplexityResult) (fRes : Option FirecrawlResult)
    (pErr fErr : Option String) :
    (∀ timedOut : Bool,
      executeParallelSearch false false fallbackEnabled id query pRes fRes pErr fErr timedOut
        = .error "No search providers enabled") ∧
    (∀ enableP enableF : Bool, (enableP || enableF) = true →
      ∃ r, executeParallelSearch enableP enableF fallbackEnabled id query pRes fRes pErr fErr false
          = .ok r ∧
        r.status = "completed" ∧
        ("perplexity" ∈ r.results.sources ↔
          perplexityUsable (if enableP then pRes else none) = true) ∧
        ("firecrawl" ∈ r.results.sources ↔
          firecrawlUsable (if enableF then fRes else none) = true)) := by
  constructor
  · intro timedOut
    cases fallbackEnabled <;> rfl
  · intro enableP enableF h
    cases enableP <;> cases enableF <;> first
      | exact ⟨_, rfl, rfl,
          (mem_sources_combineSearchResults
            (mkOperation _ _ id query pRes fRes pErr fErr)).1,
          (mem_sources_combineSearchResults
            (mkOperation _ _ id query pRes fRes pErr fErr)).2⟩
      | simp at h

/-- Witness for C3: a concrete run with only Perplexity enabled and
succeeding has `"perplexity"` in the sources and `"firecrawl"` not. -/
theorem executeParallelSearch_sources_witness :
    ((true : Bool) || false) = true ∧
    ∃ r, executeParallelSearch true false true "s" "q" (some perplexityOk)
        none none none false = .ok r ∧
      r.status = "completed" ∧
      ("perplexity" ∈ r.results.sources ↔
        perplexityUsable (if true then some perplexityOk else none) = true) ∧
      ("firecrawl" ∈ r.results.sources ↔
        firecrawlUsable (if false then (none : Option FirecrawlResult) else none) = true) :=
  ⟨by decide,
   (executeParallelSearch_sources true "s" "q" (some perplexityOk)
      none none none).2 true false (by decide)⟩

/-! ## Claim C8 -/

/-- First-hit category lookup yields either one of the listed category
names or the default. -/
theorem firstCategory_mem_or_default (text : String) (l : List (String × List String)) :
    firstCategory text l ∈ l.map Prod.fst ∨ firstCategory text l = "general_financial" := by
  induction l with
  | nil => exact Or.inr rfl
  | cons p rest ih =>
    by_cases h : matchesAny text p.2 = true
    · exact Or.inl (by simp [firstCategory, h])
    · have h' : matchesAny text p.2 = false := by simpa using h
      rcases ih with hm | hd
      · exact Or.inl (by simp [firstCategory, h']; exact Or.inr (by simpa using hm))
      · exact Or.inr (by simp [firstCategory, h', hd])

/-- First-hit category lookup defaults when no pattern matches. -/
theorem firstCategory_eq_default (text : String) (l : List (String × List String))
    (h : ∀ pair ∈ l, matchesAny text pair.2 = false) :
    firstCategory text l = "general_financial" := by
  induction l with
  | nil => rfl
  | cons p rest ih =>
    simp [firstCategory, h p (List.mem_cons_self p rest)]
    exact ih (fun q hq => h q (List.mem_cons_of_mem p hq))

/-- Claim C8, counterexample: the code matches keywords against
`content.toLowerCase() + ' ' + title.toLowerCase()`, not against the
lowercased title+content; on a record with title `"Interest"` and
content `"rate policy shift"` the code yields `general_financial` while
first-hit matching on the lowercased title-then-content text yields
`interest_rates`. -/
theorem determineCategory_text_order_counterexample :
    determineCategory straddleRecord = "general_financial" ∧
    specDetermineCategoryTitleFirst straddleRecord = "interest_rates" ∧
    determineCategory straddleRecord ≠ specDetermineCategoryTitleFirst straddleRecord := by
  with_unfolding_all decide

/-- Claim C8, amended: `determineCategory` is deterministic and total —
for every record it returns exactly one category from the fixed closed
set, chosen by first-hit ordered keyword matching on the lowercased
content followed by the title (content first), and returns
`general_financial` whenever no keyword pattern matches that text. -/
theorem determineCategory_total (r : NormalizedRecord) :
    determineCategory r ∈ categorySet ∧
    ((∀ pair ∈ categoryPatterns,
        matchesAny (r.content.toLower ++ " " ++ r.title.toLower) pair.2 = false) →
      determineCategory r = "general_financial") := by
  constructor
  · rcases firstCategory_mem_or_default
      (r.content.toLower ++ " " ++ r.title.toLower) categoryPatterns with hm | hd
    · have hsub : ∀ x ∈ categoryPatterns.map Prod.fst, x ∈ categorySet := by decide
      exact hsub _ hm
    · rw [determineCategory, hd]; decide
  · intro h
    exact firstCategory_eq_default _ _ h

/-- Witness for the amended C8 theorem: the all-default record matches
no keyword pattern and lands in `general_financial`. -/
theorem determineCategory_total_witness :
    determineCategory emptyRecord ∈ categorySet ∧
    determineCategory emptyRecord = "general_financial" :=
  ⟨(determineCategory_total emptyRecord).1,
   (determineCategory_total emptyRecord).2 (by with_unfolding_all decide)⟩

/-! ## Claim C4 -/

/-- When the incoming record duplicates nothing in the accepted list,
the scan appends it at the end. -/
theorem scanInsert_of_no_dup (r : NormalizedRecord) (acc : List NormalizedRecord)
    (h : ∀ e ∈ acc, isDuplicateOf r e = false) : scanInsert r acc = acc ++ [r] := by
  induction acc with
  | nil => rfl
  | cons e rest ih =>
    have he : isDuplicateOf r e = false := h e (List.mem_cons_self e rest)
    simp [scanInsert, he, ih (fun x hx => h x (List.mem_cons_of_mem e hx))]

/-- Folding `scanInsert` over a list whose records duplicate neither the
accumulator nor each other appends the list unchanged. -/
theorem foldl_scanInsert_eq_append (l : List NormalizedRecord) :
    ∀ acc : List NormalizedRecord,
      (∀ b ∈ l, ∀ a ∈ acc, isDuplicateOf b a = false) →
      l.Pairwise (fun a b => isDuplicateOf b a = false) →
      l.foldl (fun deduped r => scanInsert r deduped) acc = acc ++ l := by
  induction l with
  | nil => intro acc _ _; simp
  | cons r rest ih =>
    intro acc hcross hpw
    have hcross2 : ∀ b ∈ rest, ∀ a ∈ acc ++ [r], isDuplicateOf b a = false := by
      intro b hb a ha
      rcases List.mem_append.mp ha with h1 | h1
      · exact hcross b (List.mem_cons_of_mem r hb) a h1
      · have ha2 : a = r := by simpa using h1
        subst ha2
        exact (List.pairwise_cons.mp hpw).1 b hb
    rw [List.foldl_cons, scanInsert_of_no_dup r acc (hcross r (List.mem_cons_self r rest)),
        ih (acc ++ [r]) hcross2 (List.pairwise_cons.mp hpw).2]
    simp

/-- Claim C4, counterexample: `deduplicateResults` is not idempotent.
On `[A, C, B]` the first pass accepts `A` and `C` (similarity 5/7 ≤ 0.8)
and then replaces `A` in place by the higher-scored `B` without
re-checking `B` against `C`; the result `[B, C]` still contains a
similar pair (5/6 > 0.8), so a second pass shrinks it to `[B]`. -/
theorem deduplicateResults_not_idempotent :
    deduplicateResults (deduplicateResults [dedupRecordA, dedupRecordC, dedupRecordB]) ≠
      deduplicateResults [dedupRecordA, dedupRecordC, dedupRecordB] := by
  with_unfolding_all decide

/-- Claim C4, amended: `deduplicateResults` is the identity on every
list in which no later record is a duplicate of an earlier one (title
and content similarity both at most the 0.8 threshold); in particular a
second application leaves such a list unchanged.  Idempotence fails in
general once an in-place replacement leaves a similar pair behind. -/
theorem deduplicateResults_identity (l : List NormalizedRecord)
    (h : l.Pairwise (fun a b => isDuplicateOf b a = false)) :
    deduplicateResults l = l := by
  have h0 : ∀ b ∈ l, ∀ a ∈ ([] : List NormalizedRecord), isDuplicateOf b a = false := by
    intro b _ a ha
    exact absurd ha (List.not_mem_nil a)
  simpa [deduplicateResults] using foldl_scanInsert_eq_append l [] h0 h

/-- Witness for the amended C4 theorem: a two-record pairwise-dissimilar
list passes through deduplication unchanged. -/
theorem deduplicateResults_identity_witness :
    ([distinctRecord1, distinctRecord2].Pairwise
       (fun a b => isDuplicateOf b a = false)) ∧
    deduplicateResults [distinctRecord1, distinctRecord2]
      = [distinctRecord1, distinctRecord2] := by
  have hp : [distinctRecord1, distinctRecord2].Pairwise
      (fun a b => isDuplicateOf b a = false) := by
    refine List.Pairwise.cons ?_ (List.Pairwise.cons ?_ List.Pairwise.nil)
    · intro b hb
      have hb2 : b = distinctRecord2 := by simpa using hb
      subst hb2
      with_unfolding_all decide
    · intro b hb
      exact absurd hb (List.not_mem_nil b)
  exact ⟨hp, deduplicateResults_identity _ hp⟩

/-! ## Claim C5 -/

/-- Claim C5, counterexample: the input `[C, A, B]` contains the pair
`(A, B)` with normalized-title similarity 5/6 > 0.8; deduplication drops
`A` (absorbed by the higher-scored `C`) and keeps `B`, so exactly one of
the pair is retained — but the retained `B` has *lower* relevance than
the discarded `A`. -/
theorem deduplicateResults_pair_counterexample :
    calculateSimilarity (titleKey lowRecordB5) (titleKey dropRecordA5) > dedupThreshold ∧
    calculateSimilarity (titleKey dropRecordA5) (titleKey lowRecordB5) > dedupThreshold ∧
    deduplicateResults [keepRecordC5, dropRecordA5, lowRecordB5]
      = [keepRecordC5, lowRecordB5] ∧
    dropRecordA5 ∉ deduplicateResults [keepRecordC5, dropRecordA5, lowRecordB5] ∧
    lowRecordB5.relevanceScore < dropRecordA5.relevanceScore := by
  with_unfolding_all decide

/-- Claim C5, amended: for a *two-record* input list whose
normalized-title word-overlap similarity exceeds the 0.8 threshold,
`deduplicateResults` retains exactly one of the two, and the retained
record's relevance score is at least the discarded one's (on equal
scores the earlier record is kept).  With more records in the list the
property can fail, because a record may be absorbed by a third similar
record of higher score while its partner survives. -/
theorem deduplicateResults_pair (a b : NormalizedRecord)
    (h : calculateSimilarity (titleKey b) (titleKey a) > dedupThreshold) :
    (deduplicateResults [a, b] = [b] ∧ a.relevanceScore ≤ b.relevanceScore) ∨
    (deduplicateResults [a, b] = [a] ∧ b.relevanceScore ≤ a.relevanceScore) := by
  have hd : isDuplicateOf b a = true := by
    unfold isDuplicateOf
    rw [decide_eq_true h, Bool.true_or]
  by_cases hrel : b.relevanceScore > a.relevanceScore
  · exact Or.inl ⟨by simp [deduplicateResults, scanInsert, hd, hrel], le_of_lt hrel⟩
  · exact Or.inr ⟨by simp [deduplicateResults, scanInsert, hd, hrel], le_of_not_lt hrel⟩

/-- Witness for the amended C5 theorem at a concrete similar pair. -/
theorem deduplicateResults_pair_witness :
    (deduplicateResults [pairRecordLow, pairRecordHigh] = [pairRecordHigh] ∧
       pairRecordLow.relevanceScore ≤ pairRecordHigh.relevanceScore) ∨
    (deduplicateResults [pairRecordLow, pairRecordHigh] = [pairRecordLow] ∧
       pairRecordHigh.relevanceScore ≤ pairRecordLow.relevanceScore) :=
  deduplicateResults_pair pairRecordLow pairRecordHigh (by with_unfolding_all decide)

/-! ## Claim C9 -/

/-- Claim C9, counterexample: when the planning stage throws *and* the
search stage then also throws, the top-level `catch` of
`executeFinancialSearch` answers with a workflow that carries no step
records at all, so no planning-fallback step is present in the
response. -/
theorem executeFinancialSearch_planning_fallback_counterexample :
    (executeFinancialSearch "sid" "what are rates" true true true 5 none
       (Except.error "Planning failed")
       (fun _ => Except.error "Search timeout")).workflow.steps = none ∧
    (executeFinancialSearch "sid" "what are rates" true true true 5 none
       (Except.error "Planning failed")
       (fun _ => Except.error "Search timeout")).errorBody
      = some "Search timeout" := by
  with_unfolding_all decide

/-- Claim C9, amended: for every user query, if the planning stage
throws and the subsequent search stage does not throw, then
`executeFinancialSearch` returns a response whose workflow planning step
records the fallback (`success := false`, `fallback := true`, the
planning error) with sub-question list exactly `[originalQuery]`, and
whose searching step wraps the single orchestrator call made on that
query. -/
theorem executeFinancialSearch_planning_fallback (searchId userQuery e : String)
    (enableProcessing : Bool) (maxSubQuestions : Nat) (maxConcurrent : Option Nat)
    (single : String → Except String SearchOrchestrator.ParallelSearchReturn)
    (r : SearchOrchestrator.ParallelSearchReturn)
    (hsearch : single userQuery = Except.ok r) :
    (executeFinancialSearch searchId userQuery true true enableProcessing
        maxSubQuestions maxConcurrent (Except.error e) single).workflow.steps
      = some
        { planning := some { success := false, subQuestions := [userQuery],
                             error := some e, fallback := true, note := none },
          searching := some { success := true,
                              batchId := some ("single_" ++ r.searchId),
                              totalQueries := some 1, successfulCount := some 1,
                              failedCount := some 0, error := none },
          processing := some (processingStepOf enableProcessing) } := by
  simp [executeFinancialSearch, planningStage, searchStage, hsearch]

/-- Witness for the amended C9 theorem at a concrete succeeding search. -/
theorem executeFinancialSearch_planning_fallback_witness :
    (executeFinancialSearch "sid" "q" true true true 5 none
        (Except.error "boom") (fun _ => Except.ok okReturn)).workflow.steps
      = some
        { planning := some { success := false, subQuestions := ["q"],
                             error := some "boom", fallback := true, note := none },
          searching := some { success := true,
                              batchId := some ("single_" ++ okReturn.searchId),
                              totalQueries := some 1, successfulCount := some 1,
                              failedCount := some 0, error := none },
          processing := some (processingStepOf true) } :=
  executeFinancialSearch_planning_fallback "sid" "q" "boom" true 5 none
    (fun _ => Except.ok okReturn) okReturn rfl

/-! ## Claim C10 -/

/-- The effective chunk size is always positive (`0` is falsy in JS, so
`options.maxConcurrent || 3` never yields `0`). -/
theorem effectiveMaxConcurrent_pos (o : Option Nat) :
    0 < SearchOrchestrator.effectiveMaxConcurrent o := by
  cases o with
  | none => exact Nat.succ_pos 2
  | some n =>
    by_cases h : n = 0
    · subst h; exact Nat.succ_pos 2
    · have he : SearchOrchestrator.effectiveMaxConcurrent (some n) = n := by
        simp [SearchOrchestrator.effectiveMaxConcurrent, h]
      rw [he]
      omega

/-- With a positive chunk size and enough fuel, the chunk loop is a
plain map over the query list, in order. -/
theorem chunkedRun_eq_map (f : String → SearchOrchestrator.BatchEntry) (k : Nat)
    (hk : 0 < k) :
    ∀ (fuel : Nat) (l : List String), l.length ≤ fuel →
      SearchOrchestrator.chunkedRun f k fuel l = l.map f := by
  intro fuel
  induction fuel with
  | zero =>
    intro l hl
    have h0 : l = [] := List.length_eq_zero.mp (Nat.le_zero.mp hl)
    subst h0; rfl
  | succ n ih =>
    intro l hl
    cases l with
    | nil => rfl
    | cons a as =>
      have hdrop : ((a :: as).drop k).length ≤ n := by
        simp only [List.length_drop, List.length_cons]
        simp only [List.length_cons] at hl
        omega
      simp only [SearchOrchestrator.chunkedRun, ih ((a :: as).drop k) hdrop]
      rw [← List.map_append, List.take_append_drop]

/-- Claim C10: `executeBatchSearch` returns one entry per input query in
query order; `successful` is exactly the `status = "completed"` subset
of `results` and `failed` everything else — in particular every
`partial_success` entry lands in `failed` — and the workflow
coordinator's downstream combination reads only the `successful`
partition. -/
theorem executeBatchSearch_partition (queries : List String) (mc : Option Nat)
    (search : String → Except String SearchOrchestrator.ParallelSearchReturn) :
    (executeBatchSearch queries mc search).results
        = queries.map (SearchOrchestrator.runSearchEntry search) ∧
    (executeBatchSearch queries mc search).results.length = queries.length ∧
    (executeBatchSearch queries mc search).successful
        = (executeBatchSearch queries mc search).results.filter
            (fun r => r.status = "completed") ∧
    (executeBatchSearch queries mc search).failed
        = (executeBatchSearch queries mc search).results.filter
            (fun r => !(r.status = "completed" : Bool)) ∧
    (∀ e ∈ (executeBatchSearch queries mc search).results,
       SearchOrchestrator.BatchEntry.status e = "partial_success" →
         e ∈ (executeBatchSearch queries mc search).failed ∧
         e ∉ (executeBatchSearch queries mc search).successful) ∧
    (∀ b1 b2 : SearchOrchestrator.BatchOut, b1.successful = b2.successful →
       ∀ (q sid : String),
         (FinancialSearchService.combineSearchResults b1 q sid).allResults
           = (FinancialSearchService.combineSearchResults b2 q sid).allResults) := by
  have hres : (executeBatchSearch queries mc search).results
      = queries.map (SearchOrchestrator.runSearchEntry search) :=
    chunkedRun_eq_map _ _ (effectiveMaxConcurrent_pos mc) queries.length queries
      (Nat.le_refl _)
  refine ⟨hres, by rw [hres, List.length_map], rfl, rfl, ?_, ?_⟩
  · intro e he hstat
    have hd : decide (SearchOrchestrator.BatchEntry.status e = "completed") = false := by
      rw [hstat]; rfl
    constructor
    · exact List.mem_filter.mpr ⟨he, by rw [hd]; rfl⟩
    · intro hmem
      have h2 := (List.mem_filter.mp hmem).2
      rw [hd] at h2
      exact Bool.false_ne_true h2
  · intro b1 b2 h q sid
    simp only [FinancialSearchService.combineSearchResults, h]

/-- Witness for C10: a concrete batch whose single entry is a
partial-success record places it in the failed partition and not in the
successful one. -/
theorem executeBatchSearch_partition_witness :
    SearchOrchestrator.BatchEntry.ok partialReturn
        ∈ (executeBatchSearch ["q"] none (fun _ => Except.ok partialReturn)).results ∧
    SearchOrchestrator.BatchEntry.status (SearchOrchestrator.BatchEntry.ok partialReturn)
        = "partial_success" ∧
    (SearchOrchestrator.BatchEntry.ok partialReturn
        ∈ (executeBatchSearch ["q"] none (fun _ => Except.ok partialReturn)).failed ∧
     SearchOrchestrator.BatchEntry.ok partialReturn
        ∉ (executeBatchSearch ["q"] none (fun _ => Except.ok partialReturn)).successful) :=
  ⟨by with_unfolding_all decide, rfl,
   (executeBatchSearch_partition ["q"] none (fun _ => Except.ok partialReturn)).2.2.2.2.1
     _ (by with_unfolding_all decide) rfl⟩

/-! ## Claim C7 -/

/-- The confidence tier lies in `[50, 100]`. -/
theorem confidenceTierScore_bounds (c : String) :
    50 ≤ confidenceTierScore c ∧ confidenceTierScore c ≤ 100 := by
  unfold ResultsProcessor.confidenceTierScore
  split
  · norm_num
  · split <;> norm_num

/-- The freshness score lies in `[50, 100]`. -/
theorem calculateFreshnessScore_bounds (now : ℚ) (r : NormalizedRecord) :
    50 ≤ calculateFreshnessScore now r ∧ calculateFreshnessScore now r ≤ 100 := by
  cases h : r.timestamp with
  | none =>
    simp only [ResultsProcessor.calculateFreshnessScore, h]
    norm_num
  | some t =>
    simp only [ResultsProcessor.calculateFreshnessScore, h]
    split
    · norm_num
    · split
      · norm_num
      · split <;> norm_num

/-- A true-count ratio scaled to 100 lies in `[0, 100]`. -/
theorem count_ratio_bounds (l : List Bool) :
    0 ≤ ((l.count true : ℚ) / (l.length : ℚ)) * 100 ∧
    ((l.count true : ℚ) / (l.length : ℚ)) * 100 ≤ 100 := by
  have h1 : (0 : ℚ) ≤ (l.count true : ℚ) := Nat.cast_nonneg _
  have h2 : (l.count true : ℚ) ≤ (l.length : ℚ) := by
    exact_mod_cast List.count_le_length true l
  have h3 : (0 : ℚ) ≤ (l.length : ℚ) := Nat.cast_nonneg _
  constructor
  · positivity
  · by_cases hl : (l.length : ℚ) = 0
    · rw [hl, div_zero, zero_mul]
      norm_num
    · have hlpos : (0 : ℚ) < (l.length : ℚ) := lt_of_le_of_ne h3 (Ne.symm hl)
      have hle : (l.count true : ℚ) / (l.length : ℚ) ≤ 1 := (div_le_one hlpos).mpr h2
      linarith

/-- The completeness score lies in `[0, 100]`. -/
theorem calculateCompletenessScore_bounds (r : NormalizedRecord) :
    0 ≤ calculateCompletenessScore r ∧ calculateCompletenessScore r ≤ 100 := by
  unfold ResultsProcessor.calculateCompletenessScore
  exact count_ratio_bounds _

/-- JS rounding of a value in `[0, 100]` stays in `[0, 100]`. -/
theorem jsRound_bounds (x : ℚ) (h0 : 0 ≤ x) (h100 : x ≤ 100) :
    0 ≤ jsRound x ∧ jsRound x ≤ 100 := by
  unfold jsRound
  constructor
  · apply Int.le_floor.mpr
    have hh : (0 : ℚ) ≤ x + 1/2 := by linarith
    exact_mod_cast hh
  · have hlt : (⌊x + 1/2⌋ : ℤ) < 101 := by
      apply Int.floor_lt.mpr
      have hh : x + 1/2 < 101 := by linarith
      exact_mod_cast hh
    omega

/-- Claim C7: for every list of well-formed records (relevance score in
`[0, 100]`), every record produced by `scoreResults` carries an integer
quality score in `[0, 100]` equal to
`round(relevance*0.4 + confidenceTier*0.3 + freshness*0.2 + completeness*0.1)`;
the computation is total, also on all-default records. -/
theorem scoreResults_quality_bounds (now : ℚ) (results : List NormalizedRecord)
    (query : String)
    (h : ∀ r ∈ results, 0 ≤ r.relevanceScore ∧ r.relevanceScore ≤ 100) :
    ∀ s ∈ scoreResults now results query,
      (0 ≤ s.qualityScore ∧ s.qualityScore ≤ 100) ∧
      s.qualityScore = jsRound
        (s.relevanceScore * qualityWeights.relevance +
         confidenceTierScore s.confidence * qualityWeights.confidence +
         s.freshnessScore * qualityWeights.freshness +
         s.completenessScore * qualityWeights.completeness) := by
  intro s hs
  rw [ResultsProcessor.scoreResults] at hs
  have hs2 : s ∈ results.map (scoreOne now) := List.mem_mergeSort.mp hs
  obtain ⟨r, hr, rfl⟩ := List.mem_map.mp hs2
  refine ⟨?_, rfl⟩
  have hrel := h r hr
  have hconf := confidenceTierScore_bounds r.confidence
  have hfresh := calculateFreshnessScore_bounds now r
  have hcomp := calculateCompletenessScore_bounds r
  have hq : (scoreOne now r).qualityScore
      = jsRound (r.relevanceScore * (4/10) +
          confidenceTierScore r.confidence * (3/10) +
          calculateFreshnessScore now r * (2/10) +
          calculateCompletenessScore r * (1/10)) := rfl
  rw [hq]
  apply jsRound_bounds
  · linarith [hrel.1, hconf.1, hfresh.1, hcomp.1]
  · linarith [hrel.2, hconf.2, hfresh.2, hcomp.2]

/-- Witness for C7: the singleton list around `scoredRecordW` satisfies
the well-formedness hypothesis and its scored record satisfies the
bounds and the rounding equation. -/
theorem scoreResults_quality_bounds_witness :
    ((0 ≤ (scoreOne 0 scoredRecordW).qualityScore ∧
        (scoreOne 0 scoredRecordW).qualityScore ≤ 100) ∧
      (scoreOne 0 scoredRecordW).qualityScore = jsRound
        ((scoreOne 0 scoredRecordW).relevanceScore * qualityWeights.relevance +
         confidenceTierScore (scoreOne 0 scoredRecordW).confidence *
           qualityWeights.confidence +
         (scoreOne 0 scoredRecordW).freshnessScore * qualityWeights.freshness +
         (scoreOne 0 scoredRecordW).completenessScore *
           qualityWeights.completeness)) := by
  have h : ∀ r ∈ [scoredRecordW], 0 ≤ r.relevanceScore ∧ r.relevanceScore ≤ 100 := by
    intro r hr
    have hr2 : r = scoredRecordW := by simpa using hr
    subst hr2
    constructor <;> with_unfolding_all decide
  have mem : scoreOne 0 scoredRecordW ∈ scoreResults 0 [scoredRecordW] "rates" := by
    simp [ResultsProcessor.scoreResults]
  exact scoreResults_quality_bounds 0 [scoredRecordW] "rates" h _ mem

/-! ## Claim C6 -/

/-- Membership after one JS `Set` insertion. -/
theorem mem_insertUniq {α : Type} [DecidableEq α] (acc : List α) (w x : α) :
    x ∈ insertUniq acc w ↔ x ∈ acc ∨ x = w := by
  unfold insertUniq
  by_cases h : w ∈ acc
  · simp only [if_pos h]
    constructor
    · exact Or.inl
    · rintro (hx | rfl)
      · exact hx
      · exact h
  · simp [if_neg h]

/-- JS `Set` insertion preserves distinctness. -/
theorem nodup_insertUniq {α : Type} [DecidableEq α] (acc : List α) (w : α)
    (h : acc.Nodup) : (insertUniq acc w).Nodup := by
  unfold insertUniq
  by_cases hw : w ∈ acc
  · simpa [if_pos hw] using h
  · simp [if_neg hw, List.nodup_append, h, hw]

/-- Membership in the JS set of a list. -/
theorem mem_jsSetOf {α : Type} [DecidableEq α] (l : List α) (x : α) :
    x ∈ jsSetOf l ↔ x ∈ l := by
  have haux : ∀ (l acc : List α), x ∈ l.foldl insertUniq acc ↔ x ∈ acc ∨ x ∈ l := by
    intro l
    induction l with
    | nil => intro acc; simp
    | cons a as ih =>
      intro acc
      rw [List.foldl_cons, ih, mem_insertUniq]
      simp only [List.mem_cons]
      tauto
  simpa using haux l []

/-- The JS set of a list is duplicate-free. -/
theorem nodup_jsSetOf {α : Type} [DecidableEq α] (l : List α) : (jsSetOf l).Nodup := by
  have haux : ∀ (l acc : List α), acc.Nodup → (l.foldl insertUniq acc).Nodup := by
    intro l
    induction l with
    | nil => intro acc h; simpa using h
    | cons a as ih =>
      intro acc h
      rw [List.foldl_cons]
      exact ih _ (nodup_insertUniq acc a h)
  exact haux l [] List.nodup_nil

/-- Taking the JS set of a duplicate-free list is the identity. -/
theorem jsSetOf_eq_self {α : Type} [DecidableEq α] (l : List α) (h : l.Nodup) :
    jsSetOf l = l := by
  have haux : ∀ (l acc : List α), l.Nodup → (∀ x ∈ l, x ∉ acc) →
      l.foldl insertUniq acc = acc ++ l := by
    intro l
    induction l with
    | nil => intro acc _ _; simp
    | cons a as ih =>
      intro acc hnd hfr
      have ha : a ∉ acc := hfr a (List.mem_cons_self a as)
      have h1 : insertUniq acc a = acc ++ [a] := by
        unfold insertUniq
        rw [if_neg ha]
      rw [List.foldl_cons, h1,
          ih (acc ++ [a]) (List.nodup_cons.mp hnd).2 ?_]
      · simp
      · intro x hx hmem
        rcases List.mem_append.mp hmem with hc | hc
        · exact hfr x (List.mem_cons_of_mem a hx) hc
        · have : x = a := by simpa using hc
          subst this
          exact (List.nodup_cons.mp hnd).1 hx
  simpa using haux l [] h (by simp)

/-- The JS set has the same `toFinset`. -/
theorem toFinset_jsSetOf {α : Type} [DecidableEq α] (l : List α) :
    (jsSetOf l).toFinset = l.toFinset := by
  ext x
  simp [List.mem_toFinset, mem_jsSetOf]

/-- Counting the members of a duplicate-free list that lie in a second
list counts the intersection of the underlying finite sets. -/
theorem length_filter_mem {α : Type} [DecidableEq α] (l1 l2 : List α)
    (h : l1.Nodup) :
    (l1.filter (fun w => decide (w ∈ l2))).length = (l1.toFinset ∩ l2.toFinset).card := by
  rw [← List.toFinset_card_of_nodup (h.filter _)]
  congr 1
  ext x
  simp [List.mem_toFinset, List.mem_filter, Finset.mem_inter]

/-- The JS set of an append has the cardinality of the union. -/
theorem length_jsSetOf_append {α : Type} [DecidableEq α] (l1 l2 : List α) :
    (jsSetOf (l1 ++ l2)).length = (l1.toFinset ∪ l2.toFinset).card := by
  rw [← List.toFinset_card_of_nodup (nodup_jsSetOf _)]
  congr 1
  ext x
  simp [List.mem_toFinset, mem_jsSetOf, List.mem_append, Finset.mem_union]

/-- `jaccardIndex` as a ratio of intersection and union cardinalities of
the word sets. -/
theorem jaccardIndex_eq_card (s1 s2 : String) :
    jaccardIndex s1 s2 =
      (((jsSplitWs s1).toFinset ∩ (jsSplitWs s2).toFinset).card : ℚ) /
      (((jsSplitWs s1).toFinset ∪ (jsSplitWs s2).toFinset).card : ℚ) := by
  unfold jaccardIndex
  show (((jsSetOf (jsSplitWs s1)).filter
        (fun w => decide (w ∈ jsSetOf (jsSplitWs s2)))).length : ℚ) /
      ((jsSetOf (jsSetOf (jsSplitWs s1) ++ jsSetOf (jsSplitWs s2))).length : ℚ) = _
  rw [length_filter_mem _ _ (nodup_jsSetOf _), length_jsSetOf_append]
  simp only [toFinset_jsSetOf]

/-- The Jaccard index is symmetric. -/
theorem jaccardIndex_comm (s1 s2 : String) : jaccardIndex s1 s2 = jaccardIndex s2 s1 := by
  rw [jaccardIndex_eq_card, jaccardIndex_eq_card, Finset.inter_comm, Finset.union_comm]

/-- A ratio of naturals with numerator at most denominator is at most 1. -/
theorem natCast_div_le_one (a b : Nat) (h : a ≤ b) : (a : ℚ) / (b : ℚ) ≤ 1 := by
  by_cases hb : (b : ℚ) = 0
  · rw [hb, div_zero]
    norm_num
  · have hbpos : (0 : ℚ) < (b : ℚ) := lt_of_le_of_ne (Nat.cast_nonneg b) (Ne.symm hb)
    exact (div_le_one hbpos).mpr (by exact_mod_cast h)

/-- The Jaccard index is nonnegative. -/
theorem jaccardIndex_nonneg (s1 s2 : String) : 0 ≤ jaccardIndex s1 s2 := by
  rw [jaccardIndex_eq_card]
  positivity

/-- The Jaccard index is at most 1. -/
theorem jaccardIndex_le_one (s1 s2 : String) : jaccardIndex s1 s2 ≤ 1 := by
  rw [jaccardIndex_eq_card]
  exact natCast_div_le_one _ _
    (Finset.card_le_card (Finset.inter_subset_left.trans Finset.subset_union_left))

/-- `splitWsGo` never produces the empty list of pieces. -/
theorem splitWsGo_ne_nil (cs : List Char) :
    ∀ (inRun : Bool) (acc : List Char), splitWsGo inRun acc cs ≠ [] := by
  induction cs with
  | nil => intro inRun acc; cases inRun <;> simp [splitWsGo]
  | cons c cs ih =>
    intro inRun acc
    simp only [splitWsGo]
    split
    · split
      · exact ih _ _
      · simp
    · split
      · exact ih _ _
      · exact ih _ _

/-- JS split always yields at least one piece. -/
theorem jsSplitWs_ne_nil (s : String) : jsSplitWs s ≠ [] := by
  unfold jsSplitWs
  intro h
  exact splitWsGo_ne_nil s.data false [] (List.map_eq_nil_iff.mp h)

/-- A string of length 0 is the empty string. -/
theorem string_eq_empty_of_length (s : String) (h : s.length = 0) : s = "" := by
  cases s with
  | mk data =>
    have hd : data = [] := List.length_eq_zero.mp h
    subst hd
    rfl

/-- Splitting the empty string yields the one-element list `[""]`. -/
theorem jsSplitWs_empty : jsSplitWs "" = [""] := rfl

/-- On strings whose word lists are duplicate-free (first argument) and
contain no empty token, `calculateSimilarity` computes the Jaccard index
of the word sets. -/
theorem calculateSimilarity_eq_jaccard_aux (s1 s2 : String)
    (h1 : (jsSplitWs s1).Nodup) (h3 : "" ∉ jsSplitWs s1) (h4 : "" ∉ jsSplitWs s2) :
    calculateSimilarity s1 s2 = jaccardIndex s1 s2 := by
  unfold calculateSimilarity
  by_cases heq : s1 = s2
  · subst heq
    rw [if_pos rfl, jaccardIndex_eq_card, Finset.inter_self, Finset.union_self]
    have hne : (jsSplitWs s1).toFinset.card ≠ 0 := by
      intro hc
      exact jsSplitWs_ne_nil s1 ((List.toFinset_eq_empty_iff _).mp (Finset.card_eq_zero.mp hc))
    exact (div_self (by exact_mod_cast hne)).symm
  · rw [if_neg heq]
    by_cases hlen : s1.length = 0 ∨ s2.length = 0
    · exfalso
      rcases hlen with hl | hl
      · have he : s1 = "" := string_eq_empty_of_length s1 hl
        subst he
        exact h3 (by rw [jsSplitWs_empty]; exact List.mem_singleton_self "")
      · have he : s2 = "" := string_eq_empty_of_length s2 hl
        subst he
        exact h4 (by rw [jsSplitWs_empty]; exact List.mem_singleton_self "")
    · rw [if_neg hlen]
      show (((jsSplitWs s1).filter (fun w => decide (w ∈ jsSplitWs s2))).length : ℚ) /
          ((jsSetOf (jsSplitWs s1 ++ jsSplitWs s2)).length : ℚ) = _
      rw [length_filter_mem _ _ h1, length_jsSetOf_append, jaccardIndex_eq_card]

/-- Claim C6, counterexample: the intersection in
`calculateSimilarity` counts words of the first argument with
multiplicity (`words1.filter(...)`), so on (already normalized) inputs
`"a a a"` and `"a b"` the function yields 3/2 — different from the
Jaccard index 1/2, greater than 1, and different from the value 1/2
obtained with the arguments swapped. -/
theorem calculateSimilarity_jaccard_counterexample :
    calculateSimilarity (normalizeText "a a a") (normalizeText "a b") = 3/2 ∧
    jaccardIndex (normalizeText "a a a") (normalizeText "a b") = 1/2 ∧
    calculateSimilarity (normalizeText "a b") (normalizeText "a a a") = 1/2 ∧
    ¬ calculateSimilarity (normalizeText "a a a") (normalizeText "a b") ≤ 1 := by
  with_unfolding_all decide

/-- Claim C6, amended: for every pair of strings whose whitespace-split
word lists are duplicate-free and contain no empty token — as is the
case for `normalizeText` outputs whose words are distinct —
`calculateSimilarity` equals the Jaccard index of the two word sets, is
symmetric in its arguments, and lies in `[0, 1]`.  With repeated words
the function counts multiplicity in its first argument and can exceed 1
and be asymmetric. -/
theorem calculateSimilarity_jaccard (s1 s2 : String)
    (h1 : (jsSplitWs s1).Nodup) (h2 : (jsSplitWs s2).Nodup)
    (h3 : "" ∉ jsSplitWs s1) (h4 : "" ∉ jsSplitWs s2) :
    calculateSimilarity s1 s2 = jaccardIndex s1 s2 ∧
    calculateSimilarity s1 s2 = calculateSimilarity s2 s1 ∧
    0 ≤ calculateSimilarity s1 s2 ∧ calculateSimilarity s1 s2 ≤ 1 := by
  have e1 := calculateSimilarity_eq_jaccard_aux s1 s2 h1 h3 h4
  have e2 := calculateSimilarity_eq_jaccard_aux s2 s1 h2 h4 h3
  refine ⟨e1, ?_, ?_, ?_⟩
  · rw [e1, e2, jaccardIndex_comm]
  · rw [e1]
    exact jaccardIndex_nonneg s1 s2
  · rw [e1]
    exact jaccardIndex_le_one s1 s2

/-- Witness for the amended C6 theorem on two concrete duplicate-free
titles. -/
theorem calculateSimilarity_jaccard_witness :
    calculateSimilarity "fed rate" "rate policy" = jaccardIndex "fed rate" "rate policy" ∧
    calculateSimilarity "fed rate" "rate policy"
      = calculateSimilarity "rate policy" "fed rate" ∧
    0 ≤ calculateSimilarity "fed rate" "rate policy" ∧
    calculateSimilarity "fed rate" "rate policy" ≤ 1 :=
  calculateSimilarity_jaccard "fed rate" "rate policy"
    (by decide) (by decide) (by decide) (by decide)

end FinancialAgent
